import Mathlib

/-!
Verification development for the response-parsing core of
`tamu_batch_ai` (`src/tamu_batch_ai/parsers.py`, with the JSON
extraction-and-repair fragment of
`src/tamu_batch_ai/claude/htr.py`, `ClaudePage.extract_text_with_claude`).

The Python code is shallowly embedded: each Python function becomes a
Lean function of the same name (camel-cased), Python dicts become
insertion-ordered association lists, Python exceptions become `Except`
or `Option` results, and the few regular expressions used by the code
are embedded as deterministic scanning functions whose equivalence with
the regex semantics is argued in the comments next to each definition.
Strings are modelled over Lean `Char`; the ASCII fragment of Python's
whitespace and word-character classes is used, which coincides with
Python on all inputs appearing in this development.

Braces inside string literals are written with the escapes \x7b and \x7d.
-/

/-- Whitespace test modelling Python `str.strip` / regex `\s`
(ASCII fragment: space, tab, newline, carriage return, vertical tab,
form feed). -/
def isPySpace (c : Char) : Bool :=
  c = ' ' || c = '\t' || c = '\n' || c = '\r' || c = '\x0b' || c = '\x0c'

/-- Whitespace test for the JSON grammar: Python's `json` module skips
exactly space, tab, newline and carriage return between tokens. -/
def isJsonSpace (c : Char) : Bool :=
  c = ' ' || c = '\t' || c = '\n' || c = '\r'

/-- Word-character test modelling regex `\w` (ASCII fragment:
letters, digits, underscore). -/
def isWordChar (c : Char) : Bool :=
  c.isAlphanum || c = '_'

/-- The backtick character, written by code point. -/
def backtickChar : Char := Char.ofNat 96

/-- The opening-brace character, written by code point. -/
def lbraceChar : Char := Char.ofNat 123

/-- The closing-brace character, written by code point. -/
def rbraceChar : Char := Char.ofNat 125

/-- Python `str.lstrip()` on a character list. -/
def lstripL (l : List Char) : List Char := l.dropWhile isPySpace

/-- Python `str.strip()` on a character list. -/
def stripL (l : List Char) : List Char :=
  ((l.dropWhile isPySpace).reverse.dropWhile isPySpace).reverse

/-- Python `str.strip()`. -/
def pyStrip (s : String) : String := String.mk (stripL s.toList)

/-- Python `str.lstrip()`. -/
def pyLstrip (s : String) : String := String.mk (lstripL s.toList)

/-- Python `str.lower()` (ASCII fragment). -/
def pyLower (s : String) : String := String.mk (s.toList.map Char.toLower)

/-- Prefix test on character lists (pattern first).  The built-in
byte-position `String` primitives are avoided throughout this file so
that every definition reduces inside the kernel. -/
def isPrefixL : List Char → List Char → Bool
  | [], _ => true
  | _ :: _, [] => false
  | p :: ps, c :: cs => p = c && isPrefixL ps cs

/-- Python `s.startswith(p)`. -/
def strStartsWith (s p : String) : Bool := isPrefixL p.toList s.toList

/-- Python `s.endswith(p)`. -/
def strEndsWith (s p : String) : Bool :=
  isPrefixL p.toList.reverse s.toList.reverse

/-- Python `c in s` for a single character. -/
def strContains (s : String) (c : Char) : Bool :=
  s.toList.any (fun d => d = c)

/-- Python `s.split(c)` on character lists: the list of separator-free
segments, with empty segments preserved (so the empty input yields one
empty segment, as in Python). -/
def splitOnCharL (c : Char) : List Char → List (List Char)
  | [] => [[]]
  | d :: rest =>
      let r := splitOnCharL c rest
      if d = c then [] :: r
      else (d :: r.headD []) :: r.tail

/-- Python `s.split(c)`. -/
def strSplitOnChar (c : Char) (s : String) : List String :=
  (splitOnCharL c s.toList).map String.mk

/-- The indentation width of a line, `len(line) - len(line.lstrip())`
from `TOONParser.parse`. -/
def indentOf (line : String) : Nat :=
  line.toList.length - (lstripL line.toList).length

/-- Python `stripped.split(':', 1)` under the assumption (checked by the
caller) that a colon is present: the part before the first colon and
the part after it. -/
def splitFirstColon (s : String) : String × String :=
  let l := s.toList
  (String.mk (l.takeWhile (fun c => c ≠ ':')),
   String.mk ((l.dropWhile (fun c => c ≠ ':')).drop 1))

/-- The parse result: Python values as built by the parsers.  Python
dicts are insertion-ordered association lists (`vmap`), Python floats
are kept as their literal text (`vfloat`), since no claim inspects
floating-point arithmetic. -/
inductive Value where
  | vstr : String → Value
  | vint : Int → Value
  | vfloat : String → Value
  | vbool : Bool → Value
  | vnull : Value
  | vlist : List Value → Value
  | vmap : List (String × Value) → Value

/-- Python dict assignment `d[k] = v` on an insertion-ordered
association list: an existing key keeps its position and gets the new
value, a new key is appended. -/
def dictSet (m : List (String × Value)) (k : String) (v : Value) :
    List (String × Value) :=
  if m.any (fun kv => kv.1 = k) then
    m.map (fun kv => if kv.1 = k then (k, v) else kv)
  else
    m ++ [(k, v)]

/-- Accumulating scanner for the digits of a Python integer literal:
digits with single underscores allowed between digits (as accepted by
Python's `int(str)` after the first digit).  Returns `none` when a
non-digit is met or an underscore is not followed by a digit. -/
def natDigitsU (acc : Nat) : List Char → Option Nat
  | [] => some acc
  | '_' :: c :: rest =>
      if c.isDigit then natDigitsU (acc * 10 + (c.toNat - 48)) rest else none
  | c :: rest =>
      if c.isDigit then natDigitsU (acc * 10 + (c.toNat - 48)) rest else none

/-- Python `int(value)` on an already-stripped token: optional sign,
then at least one digit, with single underscores allowed between
digits.  `none` models `ValueError`. -/
def pyIntParse (s : String) : Option Int :=
  let (neg, l) :=
    match s.toList with
    | '+' :: r => (false, r)
    | '-' :: r => (true, r)
    | l => (false, l)
  match l with
  | [] => none
  | c :: _ =>
      if c.isDigit then
        (natDigitsU 0 l).map (fun n => if neg then -(n : Int) else (n : Int))
      else none

/-- Consume the remaining digits of a digit run (with single
underscores between digits), returning the unconsumed suffix. -/
def digitsURest : List Char → List Char
  | [] => []
  | '_' :: c :: rest =>
      if c.isDigit then digitsURest rest else '_' :: c :: rest
  | c :: rest =>
      if c.isDigit then digitsURest rest else c :: rest

/-- Consume a nonempty digit run (with single underscores between
digits); `none` when the list does not start with a digit. -/
def digitsU : List Char → Option (List Char)
  | [] => none
  | c :: rest => if c.isDigit then some (digitsURest rest) else none

/-- The mantissa of a Python float literal: `digits [ "." [digits] ]`
or `"." digits`.  Returns the unconsumed suffix. -/
def floatMantissa (l : List Char) : Option (List Char) :=
  match digitsU l with
  | some rest =>
      match rest with
      | '.' :: r2 =>
          match digitsU r2 with
          | some r3 => some r3
          | none => some r2
      | _ => some rest
  | none =>
      match l with
      | '.' :: r2 => digitsU r2
      | _ => none

/-- The optional exponent of a Python float literal, which must consume
the whole remaining input: empty, or `e`/`E`, optional sign, digits. -/
def floatExpOk : List Char → Bool
  | [] => true
  | c :: rest =>
      if c = 'e' || c = 'E' then
        let r :=
          match rest with
          | '+' :: r2 => r2
          | '-' :: r2 => r2
          | r2 => r2
        match digitsU r with
        | some [] => true
        | _ => false
      else false

/-- Python `float(value)` validity on an already-stripped token that
contains a `.` (the only case in which `TOONParser._parse_value` calls
`float`): optional sign, mantissa, optional exponent.  The named forms
`inf`/`nan` contain no `.` and so never arise on this domain. -/
def pyFloatValid (s : String) : Bool :=
  let l :=
    match s.toList with
    | '+' :: r => r
    | '-' :: r => r
    | l => l
  match floatMantissa l with
  | some rest => floatExpOk rest
  | none => false

/-- `TOONParser._parse_value`: coerce a raw scalar token to a typed
value, mirroring the source's branch order exactly (empty, bracketed
list, booleans, null words, number via `try: float/int except: pass`,
default string). -/
def parseValue (v0 : String) : Value :=
  let value := pyStrip v0
  if value = "" then Value.vstr ""
  else if strStartsWith value "[" && strEndsWith value "]" then
    let itemsStr := String.mk (stripL (value.toList.drop 1).dropLast)
    if itemsStr = "" then Value.vlist []
    else
      Value.vlist ((strSplitOnChar ',' itemsStr).map (fun s => Value.vstr (pyStrip s)))
  else if pyLower value = "true" then Value.vbool true
  else if pyLower value = "false" then Value.vbool false
  else if pyLower value = "null" || pyLower value = "none" then Value.vnull
  else if strContains value '.' then
    if pyFloatValid value then Value.vfloat value else Value.vstr value
  else
    match pyIntParse value with
    | some n => Value.vint n
    | none => Value.vstr value

/-- Update the association list reached from `m` by following `path`
through `vmap` nodes, applying `f` there.  This models a write through
a Python dict reference held on the parser's stack: a frame's path
always designates the `vmap` that was inserted when the frame was
pushed (writes go only to the top frame, and frames above the written
one have already been popped and are never written again, so paths of
live frames are never invalidated).  A dangling path — unreachable
under that invariant — leaves the structure unchanged. -/
def mapUpdate (path : List String)
    (f : List (String × Value) → List (String × Value)) :
    List (String × Value) → List (String × Value)
  | m =>
    match path with
    | [] => f m
    | k :: ks =>
        m.map (fun kv =>
          if kv.1 = k then
            match kv.2 with
            | Value.vmap m2 => (kv.1, Value.vmap (mapUpdate ks f m2))
            | v => (kv.1, v)
          else kv)

/-- The state of `TOONParser.parse`: the root dict under construction
and the frame stack, each frame being the path (from the root) of the
dict it writes into, paired with its recorded indent level.  The head
of the list is Python's `stack[-1]`. -/
structure ToonState where
  root : List (String × Value)
  stack : List (List String × Int)

/-- The `while stack and stack[-1][1] >= indent: stack.pop()` loop of
`TOONParser.parse`. -/
def popWhileGE : List (List String × Int) → Int → List (List String × Int)
  | [], _ => []
  | (p, lvl) :: rest, ind =>
      if lvl ≥ ind then popWhileGE rest ind else (p, lvl) :: rest

/-- One iteration of the line loop of `TOONParser.parse`: skip blank
and comment lines, pop to the active frame, then on a colon line
either push a nested dict (key ending in the `|` marker) or write the
coerced value; a line without a colon falls through the `if`, keeping
the popped stack. -/
def toonStep (st : ToonState) (line : String) : ToonState :=
  if pyStrip line = "" then st
  else
    let indent : Int := (indentOf line : Int)
    let stripped := pyStrip line
    if stripped = "" || strStartsWith stripped "#" then st
    else
      let stack1 := popWhileGE st.stack indent
      let curPath :=
        match stack1 with
        | [] => []
        | (p, _) :: _ => p
      if strContains stripped ':' then
        let kv := splitFirstColon stripped
        let key := pyStrip kv.1
        let value := pyStrip kv.2
        if strEndsWith key "|" then
          let key2 := pyStrip (String.mk key.toList.dropLast)
          { root := mapUpdate curPath (fun m => dictSet m key2 (Value.vmap [])) st.root,
            stack := (curPath ++ [key2], indent) :: stack1 }
        else
          { root := mapUpdate curPath (fun m => dictSet m key (parseValue value)) st.root,
            stack := stack1 }
      else
        { root := st.root, stack := stack1 }

/-- The initial state of `TOONParser.parse`: empty root dict and the
stack `[(result, -1)]` with the sentinel indent level `-1`. -/
def toonInit : ToonState := { root := [], stack := [([], -1)] }

/-- `TOONParser.parse`: strip the text, split on newlines, fold the
line loop, return the root dict. -/
def toonParse (text : String) : List (String × Value) :=
  ((strSplitOnChar '\n' (pyStrip text)).foldl toonStep toonInit).root

/-- Hexadecimal digit test (the environment's `Char` lacks one). -/
def isHexDigitC (c : Char) : Bool :=
  c.isDigit || ('a' ≤ c && c ≤ 'f') || ('A' ≤ c && c ≤ 'F')

/-- One decoded character of a JSON string literal: closing quote,
escape sequence, raw character (rejected in strict mode when it is a
control character below U+0020, which is how `json.loads` treats a
literal newline inside a string), or exhaustion.  Returns the decoded
characters in reverse in `acc`.  A `\uXXXX` escape is modelled as the
single code point named by its four hex digits (Python additionally
combines surrogate pairs; no input in this development contains one). -/
def jsonStringChars (acc : List Char) : List Char → Option (String × List Char)
  | [] => none
  | '\"' :: rest => some (String.mk acc.reverse, rest)
  | '\\' :: e :: rest =>
      match e with
      | '\"' => jsonStringChars ('\"' :: acc) rest
      | '\\' => jsonStringChars ('\\' :: acc) rest
      | '/' => jsonStringChars ('/' :: acc) rest
      | 'b' => jsonStringChars ('\x08' :: acc) rest
      | 'f' => jsonStringChars ('\x0c' :: acc) rest
      | 'n' => jsonStringChars ('\n' :: acc) rest
      | 'r' => jsonStringChars ('\r' :: acc) rest
      | 't' => jsonStringChars ('\t' :: acc) rest
      | 'u' =>
          match rest with
          | h1 :: h2 :: h3 :: h4 :: rest2 =>
              if isHexDigitC h1 && isHexDigitC h2 && isHexDigitC h3 && isHexDigitC h4 then
                let hv := fun (c : Char) =>
                  if c.isDigit then c.toNat - 48
                  else if 'a' ≤ c then c.toNat - 87 else c.toNat - 55
                jsonStringChars
                  (Char.ofNat (((hv h1 * 16 + hv h2) * 16 + hv h3) * 16 + hv h4) :: acc)
                  rest2
              else none
          | _ => none
      | _ => none
  | c :: rest =>
      if c.toNat < 32 then none else jsonStringChars (c :: acc) rest

/-- The digits of a JSON number (plain digits, no underscores),
returning the consumed digits and the suffix; `none` when the list
does not start with a digit. -/
def jsonDigits (l : List Char) : Option (List Char × List Char) :=
  let ds := l.takeWhile Char.isDigit
  if ds = [] then none else some (ds, l.dropWhile Char.isDigit)

/-- A JSON number starting at `l` (after the optional leading minus has
been noted by the caller): `(0|[1-9]\d*)(\.\d+)?([eE][-+]?\d+)?` as in
Python's `json` scanner.  Returns the matched characters and suffix,
and whether a fraction or exponent was present. -/
def jsonNumberBody (l : List Char) : Option (List Char × Bool × List Char) :=
  match jsonDigits l with
  | none => none
  | some (ds, rest) =>
      let intPart : List Char × List Char :=
        match ds with
        | '0' :: _ => (['0'], (ds.drop 1) ++ rest)
        | _ => (ds, rest)
      let ds0 := intPart.1
      let rest0 := intPart.2
      let fracked : List Char × Bool × List Char :=
        match rest0 with
        | '.' :: r2 =>
            match jsonDigits r2 with
            | some (fs, r3) => (ds0 ++ '.' :: fs, true, r3)
            | none => (ds0, false, rest0)
        | _ => (ds0, false, rest0)
      let m1 := fracked.1
      let hasFrac := fracked.2.1
      let rest1 := fracked.2.2
      match rest1 with
      | c :: r2 =>
          if c = 'e' || c = 'E' then
            let signed : List Char × List Char :=
              match r2 with
              | '+' :: r3 => (['+'], r3)
              | '-' :: r3 => (['-'], r3)
              | _ => ([], r2)
            match jsonDigits signed.2 with
            | some (es, r4) => some (m1 ++ c :: (signed.1 ++ es), true, r4)
            | none => some (m1, hasFrac, rest1)
          else some (m1, hasFrac, rest1)
      | [] => some (m1, hasFrac, [])

/-- Numeric value of a list of decimal digits. -/
def digitsToNat (l : List Char) : Nat :=
  l.foldl (fun acc c => acc * 10 + (c.toNat - 48)) 0

mutual

/-- One JSON value at the head of `l` (leading whitespace already
skipped), as accepted by Python's `json.loads`: object, array, string,
number, `true`, `false`, `null`, and the Python extensions `NaN`,
`Infinity`, `-Infinity`.  Fuel bounds the recursion; every recursive
call consumes at least one character, so the fuel chosen by
`jsonLoads` never runs out. -/
def jsonValue : Nat → List Char → Option (Value × List Char)
  | 0, _ => none
  | _ + 1, [] => none
  | fuel + 1, c :: rest =>
      if c = '\"' then
        (jsonStringChars [] rest).map (fun sr => (Value.vstr sr.1, sr.2))
      else if c = lbraceChar then
        jsonMembers fuel (rest.dropWhile isJsonSpace) [] true
      else if c = '[' then
        jsonItems fuel (rest.dropWhile isJsonSpace) [] true
      else if c = 't' then
        match rest with
        | 'r' :: 'u' :: 'e' :: r => some (Value.vbool true, r)
        | _ => none
      else if c = 'f' then
        match rest with
        | 'a' :: 'l' :: 's' :: 'e' :: r => some (Value.vbool false, r)
        | _ => none
      else if c = 'n' then
        match rest with
        | 'u' :: 'l' :: 'l' :: r => some (Value.vnull, r)
        | _ => none
      else if c = 'N' then
        match rest with
        | 'a' :: 'N' :: r => some (Value.vfloat "nan", r)
        | _ => none
      else if c = 'I' then
        match rest with
        | 'n' :: 'f' :: 'i' :: 'n' :: 'i' :: 't' :: 'y' :: r =>
            some (Value.vfloat "inf", r)
        | _ => none
      else if c = '-' then
        match rest with
        | 'I' :: 'n' :: 'f' :: 'i' :: 'n' :: 'i' :: 't' :: 'y' :: r =>
            some (Value.vfloat "-inf", r)
        | _ =>
            match jsonNumberBody rest with
            | some (m, isFloat, r) =>
                if isFloat then some (Value.vfloat (String.mk ('-' :: m)), r)
                else some (Value.vint (-(digitsToNat m : Int)), r)
            | none => none
      else
        match jsonNumberBody (c :: rest) with
        | some (m, isFloat, r) =>
            if isFloat then some (Value.vfloat (String.mk m), r)
            else some (Value.vint (digitsToNat m : Int), r)
        | none => none

/-- The members of a JSON object after the opening brace (whitespace
skipped); `first` is true when no member has been read yet, so a
closing brace means the empty object.  Duplicate keys follow Python
dict semantics: the later value wins. -/
def jsonMembers : Nat → List Char → List (String × Value) → Bool →
    Option (Value × List Char)
  | 0, _, _, _ => none
  | _ + 1, [], _, _ => none
  | fuel + 1, c :: rest, acc, first =>
      if c = rbraceChar && first then some (Value.vmap acc, rest)
      else if c = '\"' then
        match jsonStringChars [] rest with
        | none => none
        | some (k, r1) =>
            match r1.dropWhile isJsonSpace with
            | ':' :: r2 =>
                match jsonValue fuel (r2.dropWhile isJsonSpace) with
                | none => none
                | some (v, r3) =>
                    match r3.dropWhile isJsonSpace with
                    | ',' :: r4 =>
                        jsonMembers fuel (r4.dropWhile isJsonSpace)
                          (dictSet acc k v) false
                    | d :: r4 =>
                        if d = rbraceChar then some (Value.vmap (dictSet acc k v), r4)
                        else none
                    | [] => none
            | _ => none
      else none

/-- The items of a JSON array after the opening bracket (whitespace
skipped); `first` is true when no item has been read yet. -/
def jsonItems : Nat → List Char → List Value → Bool →
    Option (Value × List Char)
  | 0, _, _, _ => none
  | _ + 1, [], _, _ => none
  | fuel + 1, c :: rest, acc, first =>
      if c = ']' && first then some (Value.vlist acc.reverse, rest)
      else
        match jsonValue fuel (c :: rest) with
        | none => none
        | some (v, r1) =>
            match r1.dropWhile isJsonSpace with
            | ',' :: r2 => jsonItems fuel (r2.dropWhile isJsonSpace) (v :: acc) false
            | ']' :: r2 => some (Value.vlist (v :: acc).reverse, r2)
            | _ => none

end

/-- Python `json.loads`: skip leading whitespace, read one value,
require only whitespace after it (`Extra data` otherwise).  `none`
models `json.JSONDecodeError`.  The fuel `s.length + 1` suffices
because each unit of fuel spent corresponds to at least one character
consumed from the input. -/
def jsonLoads (s : String) : Option Value :=
  match jsonValue (s.toList.length + 1) (s.toList.dropWhile isJsonSpace) with
  | none => none
  | some (v, rest) =>
      if rest.dropWhile isJsonSpace = [] then some v else none

/-- True when the list begins with a triple-backtick fence. -/
def isFenceStart (l : List Char) : Bool :=
  l.take 3 = [backtickChar, backtickChar, backtickChar]

/-- Drop a literal tag word when the list begins with it (models the
deterministic behaviour of `(?:json)?` / `(?:toon)?`: when the literal
tag follows the fence the engine must consume it, because otherwise
the next regex element immediately fails on the tag's first letter). -/
def dropTag (tag : List Char) (l : List Char) : List Char :=
  if l.take tag.length = tag then l.drop tag.length else l

/-- `re.search` position scan: try the position matcher `f` at every
suffix, left to right, returning the first success. -/
def reSearch {α : Type} (f : List Char → Option α) : List Char → Option α
  | [] => f []
  | c :: rest =>
      match f (c :: rest) with
      | some r => some r
      | none => reSearch f rest

/-- Scan for the closing part `\}\s*(three backticks)` of the fenced
JSON pattern: the first closing brace followed by optional whitespace
and a fence ends the lazily matched group (`.*?` tries lengths in
increasing order, so the first qualifying brace wins).  `acc` holds
the group's characters after the opening brace, in reverse. -/
def closeScanJson (acc : List Char) : List Char → Option (List Char)
  | [] => none
  | c :: rest =>
      if c = rbraceChar && isFenceStart (rest.dropWhile isPySpace) then
        some (acc.reverse ++ [rbraceChar])
      else closeScanJson (c :: acc) rest

/-- Position matcher for `re.search(r'```(?:json)?\s*(\{.*?\})\s*```',
text, re.DOTALL)` from `ResponseParser._parse_json`: a fence, the
optional `json` tag, greedily consumed whitespace (the following
element requires a non-whitespace `\x7b`, so greed is determinate),
then the lazily matched braced group ended by the first closing brace
that is followed by whitespace and a fence. -/
def fenceJsonAt (l : List Char) : Option String :=
  if isFenceStart l then
    let r1 := dropTag ['j', 's', 'o', 'n'] (l.drop 3)
    match r1.dropWhile isPySpace with
    | c :: body =>
        if c = lbraceChar then
          (closeScanJson [] body).map (fun g => String.mk (lbraceChar :: g))
        else none
    | [] => none
  else none

/-- The fenced-JSON search of `ResponseParser._parse_json`. -/
def fenceJsonSearch (text : String) : Option String :=
  reSearch fenceJsonAt text.toList

/-- Scan for the first following fence, returning the characters
before it; used for the lazily matched group of the fenced-TOON
pattern. -/
def contentUntilFence (acc : List Char) : List Char → Option (List Char)
  | [] => none
  | c :: rest =>
      if isFenceStart (c :: rest) then some acc.reverse
      else contentUntilFence (c :: acc) rest

/-- Python `str.rstrip()` on a character list. -/
def rstripL (l : List Char) : List Char :=
  (l.reverse.dropWhile isPySpace).reverse

/-- Position matcher for `re.search(r'```(?:toon)?\s*(.*?)\s*```',
text, re.DOTALL)` from `ResponseParser._parse_toon`: a fence, the
optional `toon` tag, greedily consumed leading whitespace, then the
lazy group, which ends at the earliest following fence with the
whitespace run abutting that fence excluded (`\s*` before the closing
fence; a later fence cannot shorten the group because the whitespace
run before it cannot reach across this one). -/
def fenceToonAt (l : List Char) : Option String :=
  if isFenceStart l then
    let r1 := dropTag ['t', 'o', 'o', 'n'] (l.drop 3)
    (contentUntilFence [] (r1.dropWhile isPySpace)).map
      (fun g => String.mk (rstripL g))
  else none

/-- The fenced-TOON search of `ResponseParser._parse_toon`. -/
def fenceToonSearch (text : String) : Option String :=
  reSearch fenceToonAt text.toList

/-- `re.search(r'\{.*\}', text, re.DOTALL)`: the span from the first
opening brace to the last closing brace, matching only when the last
closing brace lies strictly after the first opening brace (the regex
requires an opening brace, then any characters, then a closing
brace). -/
def rawBraceSearch (text : String) : Option String :=
  let fromOpen := text.toList.dropWhile (fun c => c ≠ lbraceChar)
  let span := (fromOpen.reverse.dropWhile (fun c => c ≠ rbraceChar)).reverse
  match span with
  | _ :: _ :: _ => some (String.mk span)
  | _ => none

/-- The extraction half of `ResponseParser._parse_json`: fenced block
first, raw brace span second, `ValueError("No JSON found in
response")` otherwise. -/
def extractJson (text : String) : Except String String :=
  match fenceJsonSearch text with
  | some s => Except.ok s
  | none =>
      match rawBraceSearch text with
      | some s => Except.ok s
      | none => Except.error "No JSON found in response"

/-- `ResponseParser._parse_json`: extract, then `json.loads`; a decode
error becomes `ValueError("Failed to parse JSON: ...")`, modelled
without the interpolated exception text. -/
def parseJsonR (text : String) : Except String Value :=
  match extractJson text with
  | Except.error e => Except.error e
  | Except.ok js =>
      match jsonLoads js with
      | some v => Except.ok v
      | none => Except.error "Failed to parse JSON"

/-- `ResponseParser._parse_toon`: take a fenced block's interior when
one exists, the whole text otherwise, and run the TOON parser (which
never raises). -/
def parseToonV (text : String) : Value :=
  match fenceToonSearch text with
  | some s => Value.vmap (toonParse s)
  | none => Value.vmap (toonParse text)

/-- The JSON test of `ResponseParser._detect_format`:
`re.search(r'^\s*\{', text, re.MULTILINE)`.  Since `\s` also matches
the newline, a multiline match starting at some line start lands its
brace on the first non-whitespace character of a (possibly later)
line, so the regex matches exactly when some line's leading-whitespace
stripped form begins with a brace. -/
def jsonMarker (text : String) : Bool :=
  (splitOnCharL '\n' text.toList).any (fun line =>
    match lstripL line with
    | c :: _ => c = lbraceChar
    | [] => false)

/-- The TOON test of `ResponseParser._detect_format`:
`re.search(r'^\w+(\|)?:\s*', text, re.MULTILINE)`.  `\w+` is a maximal
run (a shorter run would put a word character where `|` or `:` is
required), so the regex matches exactly when some line starts with a
nonempty word-character run followed by `:` or `|:`. -/
def toonMarker (text : String) : Bool :=
  (splitOnCharL '\n' text.toList).any (fun l =>
    let w := l.takeWhile isWordChar
    let rest := l.dropWhile isWordChar
    !w.isEmpty &&
      (match rest with
       | ':' :: _ => true
       | '|' :: ':' :: _ => true
       | _ => false))

/-- `ResponseParser._detect_format`: JSON marker first, TOON marker
second, JSON as the default. -/
def detectFormat (text : String) : String :=
  if jsonMarker text then "json"
  else if toonMarker text then "toon"
  else "json"

/-- `ResponseParser.parse_response`: strip, resolve `auto` through the
detector, dispatch pinned formats directly, and for any other hint try
JSON and fall back to TOON on failure (`json.JSONDecodeError` is a
subclass of `ValueError`, so the `except` clause catches every error
`_parse_json` raises). -/
def parseResponse (responseText : String) (formatHint : String) :
    Except String Value :=
  let text := pyStrip responseText
  let hint := if formatHint = "auto" then detectFormat text else formatHint
  if hint = "json" then parseJsonR text
  else if hint = "toon" then Except.ok (parseToonV text)
  else
    match parseJsonR text with
    | Except.ok v => Except.ok v
    | Except.error _ => Except.ok (parseToonV text)

/-- The body of `escape_string_content` in
`ClaudePage.extract_text_with_claude`: replace literal newline, tab and
carriage return inside a quoted span by their escaped forms. -/
def escapeStringContent (content : List Char) : List Char :=
  content.flatMap (fun c =>
    if c = '\n' then ['\\', 'n']
    else if c = '\t' then ['\\', 't']
    else if c = '\r' then ['\\', 'r']
    else [c])

/-- `re.sub(r'"([^"]*)"', escape_string_content, json_str)` from
`ClaudePage.extract_text_with_claude`: scan left to right; at each
double quote take the (quote-free) span up to the next double quote
and escape its literal newline, tab and carriage-return characters; a
quote with no later closing quote matches nothing and the remainder is
left unchanged.  Fuel bounds the recursion; each step consumes at
least one character, so `reSubQuotes` supplies enough. -/
def reSubQuotesF : Nat → List Char → List Char
  | 0, l => l
  | _ + 1, [] => []
  | fuel + 1, c :: rest =>
      if c = '\"' then
        let content := rest.takeWhile (fun d => d ≠ '\"')
        let rest2 := rest.dropWhile (fun d => d ≠ '\"')
        match rest2 with
        | '\"' :: after =>
            '\"' :: (escapeStringContent content ++ '\"' :: reSubQuotesF fuel after)
        | _ => c :: rest
      else c :: reSubQuotesF fuel rest

/-- The quoted-span rewriting pass of
`ClaudePage.extract_text_with_claude`, with sufficient fuel. -/
def reSubQuotes (s : String) : String :=
  String.mk (reSubQuotesF s.toList.length s.toList)

/-- The JSON extraction-and-repair core of
`ClaudePage.extract_text_with_claude` (`src/tamu_batch_ai/claude/htr.py`
lines 246-259): find the raw brace span, try `json.loads`, and on a
decode error escape raw newline/tab/carriage-return characters inside
quoted spans and retry exactly once.  `none` models the fallback
branches that return the response text with a diagnostic dict instead
of a parsed value. -/
def htrParseJson (responseText : String) : Option Value :=
  match rawBraceSearch responseText with
  | none => none
  | some js =>
      match jsonLoads js with
      | some v => some v
      | none => jsonLoads (reSubQuotes js)

/-- The elements of a bracketed list literal as the spec words them
(§4.1 rule 1, claim C6): interior of the brackets trimmed, split on
commas, each element trimmed and kept as a string, empty interior
giving the empty list. -/
def listElemsSpec (t : String) : List Value :=
  let inner := String.mk (stripL (t.toList.drop 1).dropLast)
  if inner = "" then []
  else (strSplitOnChar ',' inner).map (fun s => Value.vstr (pyStrip s))

/-- The ValueCoercer rules as the spec words them (§4.1, claim C5),
first match wins: bracketed list; `true`/`false` case-insensitively; 
`null`/`none` case-insensitively; integer when there is no decimal
point and the token parses as one; float when there is a decimal point
and the token parses cleanly; otherwise the original string (the empty
token falls through every rule to the empty string). -/
def valueCoercerSpec (token : String) : Value :=
  let t := pyStrip token
  if strStartsWith t "[" && strEndsWith t "]" then Value.vlist (listElemsSpec t)
  else if pyLower t = "true" then Value.vbool true
  else if pyLower t = "false" then Value.vbool false
  else if pyLower t = "null" || pyLower t = "none" then Value.vnull
  else if !strContains t '.' && (pyIntParse t).isSome then
    Value.vint ((pyIntParse t).getD 0)
  else if strContains t '.' && pyFloatValid t then Value.vfloat t
  else Value.vstr t

/-- The frame-stack invariant of claim C9: the bottom of the stack is
always the root frame with the sentinel indent level `-1`. -/
def stackBottomed (st : ToonState) : Prop :=
  ∃ pre, st.stack = pre ++ [([], -1)]

/-- The detector returns one of its two literal answers. -/
theorem detectFormat_cases (t : String) :
    detectFormat t = "json" ∨ detectFormat t = "toon" := by
  unfold detectFormat
  by_cases h1 : jsonMarker t
  · left
    simp [h1]
  · by_cases h2 : toonMarker t
    · right
      simp [h1, h2]
    · left
      simp [h1, h2]

/-- C1, counterexample: `parse("no colon here at all", "toon")` does
not produce a MalformedIndent error; it succeeds with the empty map —
exactly the silently produced empty map the claim rules out. -/
theorem c1_counterexample :
    parseResponse "no colon here at all" "toon" = Except.ok (Value.vmap []) := by
  rfl

/-- C1, amended: a non-blank, non-comment line of the TOON text that
contains no colon is silently skipped — it writes nothing into any
dict (only stack frames are popped) — and in particular
`parse("no colon here at all", "toon")` returns the empty map rather
than any error. -/
theorem c1_amended :
    (∀ st line, pyStrip line ≠ "" →
      strStartsWith (pyStrip line) "#" = false →
      strContains (pyStrip line) ':' = false →
      (toonStep st line).root = st.root) ∧
    parseResponse "no colon here at all" "toon" = Except.ok (Value.vmap []) := by
  constructor
  · intro st line h1 h2 h3
    simp [toonStep, h1, h2, h3]
  · rfl

/-- C1, witness for the amended claim at a concrete line. -/
theorem c1_amended_witness :
    (toonStep toonInit "no colon here at all").root = toonInit.root :=
  c1_amended.1 toonInit "no colon here at all" (by decide) (by decide) (by decide)

/-- C2, counterexample: with the pinned hint `json`, the input whose
string value holds a literal newline is rejected outright — no repair
pass is attempted, and no document is produced. -/
theorem c2_counterexample :
    parseResponse "\x7b\"note\": \"line1\nline2\"\x7d" "json" =
      Except.error "Failed to parse JSON" := by
  rfl

/-- C2, amended: `ResponseParser._parse_json` performs no repair pass —
whenever the isolated substring fails `json.loads`, the error is final
immediately; the one-shot newline/tab/carriage-return escape-and-retry
repair exists only in `ClaudePage.extract_text_with_claude`
(`claude/htr.py`), where the same input parses successfully to the
document the claim expects. -/
theorem c2_amended :
    (∀ text js, extractJson text = Except.ok js → jsonLoads js = none →
      parseJsonR text = Except.error "Failed to parse JSON") ∧
    parseResponse "\x7b\"note\": \"line1\nline2\"\x7d" "json" =
      Except.error "Failed to parse JSON" ∧
    htrParseJson "\x7b\"note\": \"line1\nline2\"\x7d" =
      some (Value.vmap [("note", Value.vstr "line1\nline2")]) := by
  refine ⟨?_, rfl, rfl⟩
  intro text js h1 h2
  simp [parseJsonR, h1, h2]

/-- C2, witness for the amended claim at a concrete failing substring. -/
theorem c2_amended_witness :
    parseJsonR "\x7ba\x7d" = Except.error "Failed to parse JSON" :=
  c2_amended.1 "\x7ba\x7d" "\x7ba\x7d" (by rfl) (by rfl)

/-- C3, counterexample: with hint `auto` the detector classifies this
text as JSON, JSON extraction fails, and the error is surfaced
directly even though the TOON parser succeeds on the very same text —
no cross-format fallback is attempted for `auto`. -/
theorem c3_counterexample :
    parseResponse "\x7b\nkey: value" "auto" =
      Except.error "No JSON found in response" ∧
    parseToonV "\x7b\nkey: value" = Value.vmap [("key", Value.vstr "value")] := by
  exact ⟨rfl, rfl⟩

/-- C3, amended: the pinned hints `json` and `toon` dispatch straight
to the matching parser with no fallback, and `auto` resolves through
the detector to one of those two pinned paths, equally without any
cross-format fallback; the try-JSON-then-TOON behaviour exists only
for unrecognized hints (claim C10). -/
theorem c3_amended (text : String) :
    parseResponse text "auto" =
      (if detectFormat (pyStrip text) = "json" then parseJsonR (pyStrip text)
       else Except.ok (parseToonV (pyStrip text))) ∧
    parseResponse text "json" = parseJsonR (pyStrip text) ∧
    parseResponse text "toon" = Except.ok (parseToonV (pyStrip text)) := by
  refine ⟨?_, ?_, ?_⟩
  · rcases detectFormat_cases (pyStrip text) with h | h <;>
      simp [parseResponse, h]
  · simp [parseResponse]
  · simp [parseResponse]

/-- C4: the nesting-marker line `title|` of the claim's example (and of
the parser's own docstring) contains no colon, so `TOONParser.parse`
silently skips it and never pushes a nested dict: the example yields a
flat map with `title` dropped, not the documented nested structure.
The second conjunct locates the slip: when a colon follows the marker
(`title|:`), the nested map is built as documented. -/
theorem c4_flat_result :
    parseResponse
        "title|\n  val: Letter from John\n  conf: high\nsubjects: [War, Politics]"
        "toon" =
      Except.ok (Value.vmap
        [("val", Value.vstr "Letter from John"),
         ("conf", Value.vstr "high"),
         ("subjects", Value.vlist [Value.vstr "War", Value.vstr "Politics"])]) ∧
    toonParse "title|:\n  val: Letter from John\n  conf: high" =
      [("title", Value.vmap
        [("val", Value.vstr "Letter from John"),
         ("conf", Value.vstr "high")])] := by
  exact ⟨rfl, rfl⟩

/-- C5: scalar coercion is total by construction (`parseValue` is a
Lean function, mirroring that `_parse_value` raises no exception), and
it agrees everywhere with the coercion rules as the spec lists them,
first match wins: bracketed list, booleans, null words, integer with no
decimal point, float with a decimal point, fallback string. -/
theorem c5_coercion_follows_spec (token : String) :
    parseValue token = valueCoercerSpec token := by
  by_cases h0 : pyStrip token = ""
  · simp only [parseValue, valueCoercerSpec, listElemsSpec, h0]
    rfl
  · by_cases hb : (strStartsWith (pyStrip token) "[" &&
        strEndsWith (pyStrip token) "]") = true
    · simp only [parseValue, valueCoercerSpec, listElemsSpec, h0, hb,
        if_true, if_false]
      split
      next => rfl
      next => rfl
    · by_cases h1 : pyLower (pyStrip token) = "true"
      · simp [parseValue, valueCoercerSpec, h0, hb, h1]
      · by_cases h2 : pyLower (pyStrip token) = "false"
        · simp [parseValue, valueCoercerSpec, h0, hb, h1, h2]
        · by_cases h3 : (pyLower (pyStrip token) = "null" ||
              pyLower (pyStrip token) = "none") = true
          · simp [parseValue, valueCoercerSpec, h0, hb, h1, h2, h3]
          · by_cases hc : strContains (pyStrip token) '.' = true
            · by_cases hv : pyFloatValid (pyStrip token) = true <;>
                simp [parseValue, valueCoercerSpec, h0, hb, h1, h2, h3, hc, hv]
            · cases hip : pyIntParse (pyStrip token) with
              | some n =>
                  simp [parseValue, valueCoercerSpec, h0, hb, h1, h2, h3, hc, hip]
              | none =>
                  simp [parseValue, valueCoercerSpec, h0, hb, h1, h2, h3, hc, hip]

/-- C6: a token enclosed in brackets coerces to the ordered list of
its comma-separated elements, each trimmed and kept as a raw string
with no recursive coercion (the elements are `vstr` constructors by
the type of `listElemsSpec`), and empty bracket content yields the
empty list. -/
theorem c6_list_literal (token : String)
    (h1 : strStartsWith (pyStrip token) "[" = true)
    (h2 : strEndsWith (pyStrip token) "]" = true) :
    parseValue token = Value.vlist (listElemsSpec (pyStrip token)) := by
  have h0 : pyStrip token ≠ "" := by
    intro h
    rw [h] at h1
    exact absurd h1 (by decide)
  simp only [parseValue, listElemsSpec, h0, h1, h2, Bool.and_self, if_false,
    ite_false, Bool.and_true, and_true, if_true, ite_true]
  split
  next => rfl
  next => rfl

/-- C6, witness at the concrete tokens of the spec's examples: a
bracketed token with elements, and the empty bracket pair. -/
theorem c6_list_literal_witness :
    parseValue "[War, Politics]" =
      Value.vlist (listElemsSpec (pyStrip "[War, Politics]")) :=
  c6_list_literal "[War, Politics]" (by decide) (by decide)

/-- C7: format detection returns `json` when some line's trimmed form
begins with a brace, otherwise `toon` when some line starts with word
characters, an optional pipe, then a colon, otherwise `json`; and the
brace test runs first — the last conjunct shows a text carrying both
markers classified as JSON. -/
theorem c7_detection :
    (∀ text,
      (jsonMarker text = true → detectFormat text = "json") ∧
      (jsonMarker text = false → toonMarker text = true →
        detectFormat text = "toon") ∧
      (jsonMarker text = false → toonMarker text = false →
        detectFormat text = "json")) ∧
    toonMarker "key: value\n\x7b" = true ∧
    detectFormat "key: value\n\x7b" = "json" := by
  refine ⟨?_, by rfl, by rfl⟩
  intro text
  refine ⟨?_, ?_, ?_⟩ <;> intro h1 <;> simp [detectFormat, h1]

/-- C7, witness at concrete texts for each branch of the detection
characterization. -/
theorem c7_detection_witness :
    detectFormat "  \x7b\"a\": 1\x7d" = "json" ∧
    detectFormat "key: value" = "toon" ∧
    detectFormat "just prose" = "json" :=
  ⟨(c7_detection.1 "  \x7b\"a\": 1\x7d").1 (by rfl),
   (c7_detection.1 "key: value").2.1 (by rfl) (by rfl),
   (c7_detection.1 "just prose").2.2 (by rfl) (by rfl)⟩

/-- C8, counterexample: a fenced code block is present (its interior is
`plain`, as the TOON fence extractor itself reports), yet JSON
extraction does not take that interior — the fenced-JSON pattern
requires a braced span inside the fence, so extraction falls through to
the raw first-brace-to-last-brace span outside the block, and the
parse succeeds on it. -/
theorem c8_counterexample :
    fenceToonSearch "```\nplain\n```\n\x7b\"x\": true\x7d" = some "plain" ∧
    extractJson "```\nplain\n```\n\x7b\"x\": true\x7d" =
      Except.ok "\x7b\"x\": true\x7d" ∧
    parseResponse "```\nplain\n```\n\x7b\"x\": true\x7d" "json" =
      Except.ok (Value.vmap [("x", Value.vbool true)]) := by
  exact ⟨rfl, rfl, rfl⟩

/-- C8, amended: JSON extraction takes the interior of a fenced code
block only when the fence encloses a braced span (the fenced-JSON
pattern); otherwise it takes the span from the first opening brace to
the last closing brace when that span exists, and fails with the
no-payload error when neither matcher succeeds; the claim's concrete
example, routed through `auto` detection, yields the expected
document. -/
theorem c8_amended :
    parseResponse "Here is the result:\n```json\n\x7b\"x\": true\x7d\n```\nThanks!"
        "auto" =
      Except.ok (Value.vmap [("x", Value.vbool true)]) ∧
    (∀ text s, fenceJsonSearch text = some s →
      extractJson text = Except.ok s) ∧
    (∀ text s, fenceJsonSearch text = none → rawBraceSearch text = some s →
      extractJson text = Except.ok s) ∧
    (∀ text, fenceJsonSearch text = none → rawBraceSearch text = none →
      extractJson text = Except.error "No JSON found in response") := by
  refine ⟨rfl, ?_, ?_, ?_⟩
  · intro text s h
    simp [extractJson, h]
  · intro text s h1 h2
    simp [extractJson, h1, h2]
  · intro text h1 h2
    simp [extractJson, h1, h2]

/-- C8, witness for the amended claim: each extraction tier at a
concrete input. -/
theorem c8_amended_witness :
    extractJson "```json \x7b\"a\": 1\x7d ```" = Except.ok "\x7b\"a\": 1\x7d" ∧
    extractJson "pre \x7b\"b\": 2\x7d post" = Except.ok "\x7b\"b\": 2\x7d" ∧
    extractJson "hello" = Except.error "No JSON found in response" :=
  ⟨c8_amended.2.1 "```json \x7b\"a\": 1\x7d ```" "\x7b\"a\": 1\x7d" (by rfl),
   c8_amended.2.2.1 "pre \x7b\"b\": 2\x7d post" "\x7b\"b\": 2\x7d" (by rfl) (by rfl),
   c8_amended.2.2.2 "hello" (by rfl) (by rfl)⟩

/-- Popping frames for a line with nonnegative indent never removes the
root frame at the bottom of the stack, whose sentinel level `-1` fails
the `level ≥ indent` pop test. -/
theorem popWhileGE_keeps_bottom (pre : List (List String × Int)) (ind : Int)
    (h : 0 ≤ ind) :
    ∃ pre2, popWhileGE (pre ++ [([], -1)]) ind = pre2 ++ [([], -1)] := by
  induction pre with
  | nil =>
      refine ⟨[], ?_⟩
      simp only [List.nil_append, popWhileGE]
      rw [if_neg (by omega)]
  | cons hd tl ih =>
      obtain ⟨p, lvl⟩ := hd
      by_cases hc : lvl ≥ ind
      · simpa [popWhileGE, hc] using ih
      · exact ⟨(p, lvl) :: tl, by simp [popWhileGE, hc]⟩

/-- The stack produced by one line step is the old stack, the popped
stack, or the popped stack with one new frame pushed. -/
theorem toonStep_stack (st : ToonState) (line : String) :
    (toonStep st line).stack = st.stack ∨
    (toonStep st line).stack = popWhileGE st.stack (indentOf line : Int) ∨
    ∃ f, (toonStep st line).stack =
      f :: popWhileGE st.stack (indentOf line : Int) := by
  simp only [toonStep]
  split_ifs <;> simp

/-- C9: the root frame with sentinel indent `-1` sits at the bottom of
the initial stack, every line's indent is a nonnegative number, the
pop-while-≥ loop therefore never empties the stack (so the defensive
`if stack else result` fallback is unreachable), and the bottomed-stack
invariant is preserved by every line step on every input. -/
theorem c9_stack_never_empty :
    stackBottomed toonInit ∧
    ∀ st line, stackBottomed st →
      popWhileGE st.stack (indentOf line : Int) ≠ [] ∧
      stackBottomed (toonStep st line) := by
  refine ⟨⟨[], rfl⟩, ?_⟩
  intro st line hst
  obtain ⟨pre, hpre⟩ := hst
  obtain ⟨pre2, hpop⟩ :=
    popWhileGE_keeps_bottom pre (indentOf line : Int) (Int.ofNat_nonneg _)
  constructor
  · rw [hpre, hpop]
    simp
  · rcases toonStep_stack st line with h | h | ⟨f, h⟩
    · exact ⟨pre, by rw [h, hpre]⟩
    · exact ⟨pre2, by rw [h, hpre, hpop]⟩
    · exact ⟨f :: pre2, by rw [h, hpre, hpop]; rfl⟩

/-- C9, witness: the invariant instantiated on the initial state and a
concrete line. -/
theorem c9_stack_never_empty_witness :
    popWhileGE toonInit.stack (indentOf "a: 1" : Int) ≠ [] ∧
    stackBottomed (toonStep toonInit "a: 1") :=
  c9_stack_never_empty.2 toonInit "a: 1" ⟨[], rfl⟩

/-- C10: a format hint other than `json`, `toon` and `auto` is not
rejected: `parse_response` reaches the final `else`, which tries JSON
on the full text and falls back to TOON when JSON raises; with the
invalid hint `yaml` the TOON fallback parses `key: value`
successfully. -/
theorem c10_unknown_hint :
    (∀ text hint, hint ≠ "json" → hint ≠ "toon" → hint ≠ "auto" →
      parseResponse text hint =
        (match parseJsonR (pyStrip text) with
         | Except.ok v => Except.ok v
         | Except.error _ => Except.ok (parseToonV (pyStrip text)))) ∧
    parseResponse "key: value" "yaml" =
      Except.ok (Value.vmap [("key", Value.vstr "value")]) := by
  constructor
  · intro text hint h1 h2 h3
    simp [parseResponse, h1, h2, h3]
  · rfl

/-- C10, witness at the concrete invalid hint `yaml`. -/
theorem c10_unknown_hint_witness :
    parseResponse "key: value" "yaml" =
      (match parseJsonR (pyStrip "key: value") with
       | Except.ok v => Except.ok v
       | Except.error _ => Except.ok (parseToonV (pyStrip "key: value"))) :=
  c10_unknown_hint.1 "key: value" "yaml" (by decide) (by decide) (by decide)
